import Mathlib

/-!
Shallow embedding of the `DebInstaller` controller
(`src/debinstaller.h`, `src/debinstaller.cpp`).

The controller is a Qt `QObject`; we model its member variables as a record
`DebState`, its emitted signals as a list of `Sig` values returned by each
operation, and its external effects (spawning `dpkg` processes, launching the
asynchronous preflight check) as a list of `Act` values.  External collaborators
(the filesystem, MIME database, the `dpkg` tool and the APT cache) are
parameters gathered in an `Env` record, so every operation is a pure function
of the state, the environment and its arguments.

Machine reals (`double`) are modelled as exact fractions (`Frac`, an `Int`
numerator over a positive `Nat` denominator, interpreted into `ℚ` by
`Frac.val`); the values exercised by the claims are exactly representable,
and division by 1024 is exact scaling.
-/

namespace DebInstaller

/-- The `DebInstaller::Status` enum from the header
(`Begin`, `Installing`, `Error`, `Succeeded`). -/
inductive Status where
  | Begin
  | Installing
  | Error
  | Succeeded
deriving DecidableEq

/-- The Qt signals the controller can emit, in source order of declaration. -/
inductive Sig where
  | fileNameChanged
  | packageNameChanged
  | versionChanged
  | maintainerChanged
  | descriptionChanged
  | isValidChanged
  | canInstallChanged
  | homePageChanged
  | installedSizeChanged
  | installedVersionChanged
  | statusMessageChanged
  | statusDetailsTextChanged
  | statusChanged
  | isInstalledChanged
  | requestSwitchToInstallPage
  | preInstallMessageChanged
deriving DecidableEq

/-- External effects of an operation: a synchronous `dpkg` invocation, the
launch of the asynchronous preflight future (`QtConcurrent::run`), or the
start of the long-running install child process. -/
inductive Act where
  | runDpkg (args : List String)
  | launchPreflight (path : String)
  | startInstall (path : String)
deriving DecidableEq

/-- Outcome of one `QProcess` run of `dpkg`:
whether `waitForFinished(5000)` returned in time, the exit code, and the
buffered standard output. -/
structure ProcResult where
  finishedInTime : Bool
  exitCode : Int
  stdout : String
deriving DecidableEq

/-- External collaborators: `QFileInfo::absoluteFilePath`, the MIME database,
the `dpkg` tool (mapping an argument list to its process outcome), and the APT
cache (availability plus lookup by package name, returning the installed flag
and the current version if any). -/
structure Env where
  absolutePath : String → String
  mimeTypeOf : String → String
  dpkg : List String → ProcResult
  aptCacheOk : Bool
  aptLookup : String → Option (Bool × Option String)

/-- The controller's member variables.  `watcherFuture` is the future currently
set on `m_dependencyWatcher` (`none` before any check is launched);
`nextFutureId` allocates fresh future identities; `processRunning` is the
`QProcess` state of `m_installProcess`. -/
structure DebState where
  aptInitialized : Bool
  fileName : String
  packageName : String
  version : String
  maintainer : String
  description : String
  homePage : String
  installedSize : String
  installedVersion : String
  isValid : Bool
  canInstall : Bool
  isInstalled : Bool
  status : Status
  statusMessage : String
  statusDetails : String
  preInstallMessage : String
  processRunning : Bool
  watcherFuture : Option Nat
  nextFutureId : Nat
deriving DecidableEq

/-- State of a freshly constructed controller (constructor initializer list). -/
def initState : DebState :=
  { aptInitialized := true
    fileName := ""
    packageName := ""
    version := ""
    maintainer := ""
    description := ""
    homePage := ""
    installedSize := ""
    installedVersion := ""
    isValid := false
    canInstall := false
    isInstalled := false
    status := Status.Begin
    statusMessage := ""
    statusDetails := ""
    preInstallMessage := ""
    processRunning := false
    watcherFuture := none
    nextFutureId := 0 }

/-! ## String helpers (models of the Qt string operations used) -/

/-- Does `needle` occur at the head of `hay`? -/
def leadMatch : List Char → List Char → Bool
  | [], _ => true
  | _ :: _, [] => false
  | a :: as, b :: bs => a = b && leadMatch as bs

/-- First index at which `needle` occurs in `hay` (model of
`QString::indexOf` / leftmost regex literal match). -/
def findSub : List Char → List Char → Option Nat
  | [], needle => if needle = [] then some 0 else none
  | h :: t, needle =>
    if leadMatch needle (h :: t) then some 0
    else
      match findSub t needle with
      | some i => some (i + 1)
      | none => none

/-- Worker for `removeAllSub`, structurally recursive on a fuel that bounds
the length of the remaining input (each step consumes at least one
character, so fuel `hay.length` always suffices). -/
def removeAllFuel (needle : List Char) : Nat → List Char → List Char
  | _, [] => []
  | 0, hay => hay
  | fuel + 1, h :: t =>
    if needle ≠ [] ∧ leadMatch needle (h :: t) = true then
      removeAllFuel needle fuel ((h :: t).drop needle.length)
    else h :: removeAllFuel needle fuel t

/-- Model of `QString::remove(str)`: delete every occurrence of `needle`,
resuming the scan at the deletion point. -/
def removeAllSub (hay needle : List Char) : List Char :=
  removeAllFuel needle hay.length hay

/-- Whitespace in the sense of `QChar::isSpace` (ASCII part). -/
def isQtSpace (c : Char) : Bool :=
  c = ' ' || c = '\t' || c = '\n' || c = '\x0b' || c = '\x0c' || c = '\r'

/-- Model of `QString::trimmed`: strip leading and trailing whitespace. -/
def trimList (l : List Char) : List Char :=
  (((l.dropWhile isQtSpace).reverse).dropWhile isQtSpace).reverse

/-- Case-insensitive substring test
(`QString::contains(str, Qt::CaseInsensitive)`). -/
def containsCI (hay needle : String) : Bool :=
  (findSub (hay.toList.map Char.toLower) (needle.toList.map Char.toLower)).isSome

/-! ## Exact fractions (the embedding of `double` values)

The `double` values the controller manipulates are embedded as exact
fractions with an `Int` numerator and a positive `Nat` denominator; every
operation the source performs on them (absolute value, comparison against
1024, division by 1024, scaling by powers of ten, adding one half, floor)
is implemented on this representation with integer arithmetic.  `Frac.val`
interprets a fraction as the rational it denotes. -/

structure Frac where
  num : Int
  den : Nat
deriving DecidableEq

/-- The rational denoted by a fraction. -/
def Frac.val (f : Frac) : ℚ := (f.num : ℚ) / (f.den : ℚ)

/-- Embed a natural number. -/
def Frac.ofNat (n : Nat) : Frac := ⟨(n : Int), 1⟩

/-- `qAbs` on fractions. -/
def fabs (f : Frac) : Frac := ⟨(f.num.natAbs : Int), f.den⟩

/-- `(n : double) <= f`, by cross multiplication (denominators positive). -/
def fleNat (n : Nat) (f : Frac) : Bool := decide ((n : Int) * (f.den : Int) ≤ f.num)

/-- Divide a fraction by a positive natural number. -/
def fdivP (f : Frac) (n : Nat) : Frac := ⟨f.num, f.den * n⟩

/-- Multiply a fraction by a natural number. -/
def fmulP (f : Frac) (n : Nat) : Frac := ⟨f.num * (n : Int), f.den⟩

/-- Add one half. -/
def faddHalf (f : Frac) : Frac := ⟨f.num * 2 + (f.den : Int), f.den * 2⟩

/-- Floor of a nonnegative fraction as a natural number. -/
def ffloorNN (f : Frac) : Nat := f.num.toNat / f.den

/-- Consume a maximal nonempty run of decimal digits, returning their value,
their count, and the rest of the input. -/
def takeDigits : List Char → Nat → Nat → Nat × Nat × List Char
  | [], acc, cnt => (acc, cnt, [])
  | c :: t, acc, cnt =>
    if c.isDigit then takeDigits t (acc * 10 + (c.toNat - '0'.toNat)) (cnt + 1)
    else (acc, cnt, c :: t)

/-- Model of `QString::toDouble` (with its `ok` out-flag) on the plain decimal
forms produced by control files: optional sign, a nonempty digit run, and an
optional fractional part.  Anything else fails (`none`). -/
def parseDoubleF (s : String) : Option Frac :=
  let l := s.toList
  let signAndRest : Bool × List Char :=
    match l with
    | '-' :: t => (true, t)
    | '+' :: t => (false, t)
    | _ => (false, l)
  let neg := signAndRest.1
  let body := signAndRest.2
  let d := takeDigits body 0 0
  if d.2.1 = 0 then none
  else
    let withSign : Frac → Option Frac := fun v =>
      some (if neg then ⟨-v.num, v.den⟩ else v)
    match d.2.2 with
    | [] => withSign ⟨(d.1 : Int), 1⟩
    | '.' :: rest =>
      let f := takeDigits rest 0 0
      if f.2.1 = 0 then none
      else
        match f.2.2 with
        | [] => withSign ⟨(d.1 * 10 ^ f.2.1 + f.1 : Nat), 10 ^ f.2.1⟩
        | _ => none
    | _ => none

/-! ## Byte-size formatting (`DebInstaller::formatByteSize`) -/

/-- The scaling loop `while (qAbs(size) >= 1024.0 && unit < 8)`.
The bound `unit < 8` is carried as the fuel `8 - unit`; the function is
entered with `unit = 0` and fuel `8`. -/
def scaleSteps : Frac → Nat → Nat → Frac × Nat
  | size, unit, 0 => (size, unit)
  | size, unit, fuel + 1 =>
    if fleNat 1024 (fabs size) then scaleSteps (fdivP size 1024) (unit + 1) fuel
    else (size, unit)

/-- Left-pad the decimal rendering of `n` with zeros to width `w`. -/
def natPad (n w : Nat) : String :=
  let s := toString n
  String.mk (List.replicate (w - s.length) '0') ++ s

/-- Fixed-point decimal rendering of a nonnegative fraction with `prec`
fractional digits (model of `QString::number(x, 'f', prec)`), rounding to
nearest with halves away from zero. -/
def decimalStringNN (q : Frac) (prec : Nat) : String :=
  let n : Nat := ffloorNN (faddHalf (fmulP q (10 ^ prec)))
  if prec = 0 then toString n
  else toString (n / 10 ^ prec) ++ "." ++ natPad (n % 10 ^ prec) prec

/-- Signed fixed-point decimal rendering. -/
def decimalString (q : Frac) (prec : Nat) : String :=
  if q.num < 0 then "-" ++ decimalStringNN ⟨-q.num, q.den⟩ prec
  else decimalStringNN q prec

/-- `DebInstaller::formatByteSize`: scale by 1024 while at least 1024 and a
larger unit exists (capped at unit 8 = YB), render with the requested
precision except that whole bytes use zero decimals, and suffix the unit
name (the `switch` in the source; its `default` branch returns an empty
string and is unreachable because the loop never exceeds unit 8). -/
def formatByteSize (size : Frac) (precision : Nat) : String :=
  let p := scaleSteps size 0 8
  let prec := if p.2 = 0 then 0 else precision
  let numString := decimalString p.1 prec
  match p.2 with
  | 0 => numString ++ " B"
  | 1 => numString ++ " KB"
  | 2 => numString ++ " MB"
  | 3 => numString ++ " GB"
  | 4 => numString ++ " TB"
  | 5 => numString ++ " PB"
  | 6 => numString ++ " EB"
  | 7 => numString ++ " ZB"
  | 8 => numString ++ " YB"
  | _ => ""

/-! ## Command invocation and control-field extraction -/

/-- `DebInstaller::runDpkgCommand`: on `waitForFinished(5000)` the out
parameter receives the buffered standard output and success is `exitCode == 0`;
on timeout the function returns `false` with the out parameter untouched. -/
def runDpkgCommand (r : ProcResult) (output : String) : Bool × String :=
  if r.finishedInTime then (decide (r.exitCode = 0), r.stdout)
  else (false, output)

/-- The regex match of `QRegularExpression(fieldName + ":\s*(.*)")` against
`output` (default options: `.` does not match a newline, `\s` does).  Finds
the leftmost occurrence of the literal `fieldName ++ ":"`, consumes the
maximal whitespace run after it, and captures the maximal newline-free run. -/
def matchFieldCapture (fieldName output : String) : Option (List Char) :=
  match findSub output.toList (fieldName ++ ":").toList with
  | none => none
  | some i =>
    let rest := output.toList.drop (i + fieldName.length + 1)
    let afterWs := rest.dropWhile isQtSpace
    some (afterWs.takeWhile (fun c => !(c = '\n')))

/-- `DebInstaller::extractControlField`: run `dpkg -I <file> <field>`, and on
success return the trimmed regex capture (empty string when the pattern does
not match or the command fails). -/
def extractControlField (env : Env) (file fieldName : String) : String :=
  if (runDpkgCommand (env.dpkg ["-I", file, fieldName]) "").1 then
    match matchFieldCapture fieldName
        (runDpkgCommand (env.dpkg ["-I", file, fieldName]) "").2 with
    | some cap => String.mk (trimList cap)
    | none => ""
  else ""

/-- The description truncation in `parseDebFile`:
`indexOf('\n')`, truncated only when the position is strictly positive. -/
def firstLineQuirk (s : String) : String :=
  match findSub s.toList ['\n'] with
  | some i => if 0 < i then String.mk (s.toList.take i) else s
  | none => s

/-- The `dpkg` argument lists issued by `parseDebFile`, in order. -/
def parseDebActs (file : String) : List Act :=
  [Act.runDpkg ["-I", file],
   Act.runDpkg ["-I", file, "Package"],
   Act.runDpkg ["-I", file, "Version"],
   Act.runDpkg ["-I", file, "Maintainer"],
   Act.runDpkg ["-I", file, "Description"],
   Act.runDpkg ["-I", file, "Homepage"],
   Act.runDpkg ["-I", file, "Installed-Size"]]

/-- `DebInstaller::parseDebFile`: validate with `dpkg -I`, extract the control
fields, truncate the description at the first newline, and update
`m_installedSize` only when the `Installed-Size` field is nonempty and parses
as a number.  Returns whether the package name is nonempty, the updated state
and the external invocations. -/
def parseDebFile (st : DebState) (env : Env) : Bool × DebState × List Act :=
  if (runDpkgCommand (env.dpkg ["-I", st.fileName]) "").1 = false then
    (false, st, [Act.runDpkg ["-I", st.fileName]])
  else
    let pkg := extractControlField env st.fileName "Package"
    let ver := extractControlField env st.fileName "Version"
    let mant := extractControlField env st.fileName "Maintainer"
    let desc := firstLineQuirk (extractControlField env st.fileName "Description")
    let hp := extractControlField env st.fileName "Homepage"
    let sizeStr := extractControlField env st.fileName "Installed-Size"
    let st1 := { st with
      packageName := pkg, version := ver, maintainer := mant,
      description := desc, homePage := hp }
    let st2 :=
      if sizeStr ≠ "" then
        match parseDoubleF sizeStr with
        | some d => { st1 with installedSize := formatByteSize (fmulP d 1024) 1 }
        | none => st1
      else st1
    (decide (pkg ≠ ""), st2, parseDebActs st.fileName)

/-- `DebInstaller::updatePackageInfo`: when APT is uninitialized, the package
name is empty, or the cache is unavailable, reset the installed state and
return without emitting; otherwise look the package up and emit the change
notifications for all metadata fields. -/
def updatePackageInfo (st : DebState) (env : Env) : DebState × List Sig :=
  if st.aptInitialized = false ∨ st.packageName = "" then
    ({ st with isInstalled := false, installedVersion := "" }, [])
  else if env.aptCacheOk = false then
    ({ st with isInstalled := false, installedVersion := "" }, [])
  else
    let st' :=
      match env.aptLookup st.packageName with
      | none => { st with isInstalled := false, installedVersion := "" }
      | some (flag, verOpt) =>
        { st with
          isInstalled := flag,
          installedVersion := match verOpt with | some v => v | none => "" }
    (st', [Sig.isInstalledChanged, Sig.installedVersionChanged,
           Sig.packageNameChanged, Sig.versionChanged, Sig.maintainerChanged,
           Sig.descriptionChanged, Sig.homePageChanged, Sig.installedSizeChanged])

/-! ## Archive selection and the asynchronous preflight check -/

/-- The content type required of the selected file. -/
def debMime : String := "application/vnd.debian.binary-package"

/-- `DebInstaller::setFileName`.  Empty or unchanged input returns
immediately.  The `file://` prefix is stripped (every occurrence, as
`QString::remove` does), the path resolved, and the MIME type checked before
anything else: on mismatch only `m_preInstallMessage` is set.  Otherwise the
derived state is reset, `parseDebFile` runs synchronously, and on success the
installed state is refreshed and the asynchronous dependency check launched
by setting a fresh future on `m_dependencyWatcher`
(`m_dependencyWatcher->setFuture(QtConcurrent::run(...))`). -/
def setFileName (st : DebState) (env : Env) (fileName : String) :
    DebState × List Sig × List Act :=
  if fileName = "" ∨ st.fileName = fileName then (st, [], [])
  else
    let newPath := String.mk (removeAllSub fileName.toList ("file://").toList)
    let abs := env.absolutePath newPath
    let mime := env.mimeTypeOf abs
    if mime ≠ debMime then
      ({ st with preInstallMessage := "Error: Not a valid Debian package" },
       [Sig.preInstallMessageChanged], [])
    else
      let st1 := { st with
        fileName := abs, isValid := false, canInstall := false,
        preInstallMessage := "" }
      let parsed := parseDebFile st1 env
      let st2 := { parsed.2.1 with isValid := parsed.1 }
      if parsed.1 then
        let upd := updatePackageInfo st2 env
        let st3 := { upd.1 with
          watcherFuture := some upd.1.nextFutureId,
          nextFutureId := upd.1.nextFutureId + 1 }
        (st3, Sig.isValidChanged :: upd.2 ++ [Sig.fileNameChanged],
         parsed.2.2 ++ [Act.launchPreflight abs])
      else
        ({ st2 with preInstallMessage := "Error: Invalid or corrupted package" },
         [Sig.isValidChanged, Sig.preInstallMessageChanged, Sig.fileNameChanged],
         parsed.2.2)

/-- Delivery of a finished preflight future to the controller: the lambda
connected to `QFutureWatcher::finished`.  Per `QFutureWatcher::setFuture`
semantics, setting a new future stops watching the previous one, so the
handler runs only for the future currently set on the watcher; a completion
of a replaced (stale) future delivers nothing.  When it runs, it stores the
result in `m_canInstall`, fills a default message when the result is negative
and no message is set, and emits both notifications. -/
def onDependencyFinished (st : DebState) (futureId : Nat) (result : Bool) :
    DebState × List Sig :=
  if st.watcherFuture = some futureId then
    (if result = false ∧ st.preInstallMessage = "" then
       { st with canInstall := result,
                 preInstallMessage := "Error: Cannot satisfy dependencies" }
     else { st with canInstall := result },
     [Sig.canInstallChanged, Sig.preInstallMessageChanged])
  else (st, [])

/-! ## Preflight checks -/

/-- `DebInstaller::checkDependencies`: trial install with
`dpkg --dry-run -i`.  Success means dependencies are satisfied; on failure,
only diagnostic text containing a dependency keyword reports unmet
dependencies, any other failure (including a timeout, which leaves the
captured output empty) falls through to `true`. -/
def checkDependencies (st : DebState) (env : Env) : Bool × DebState :=
  let p := runDpkgCommand (env.dpkg ["--dry-run", "-i", st.fileName]) ""
  if p.1 then (true, st)
  else if containsCI p.2 "depends" || containsCI p.2 "dependency" then
    (false, { st with preInstallMessage := "Error: Unmet dependencies" })
  else (true, st)

/-- `DebInstaller::checkConflicts`: same trial install; a failure whose
diagnostic text contains a conflict keyword reports a conflict. -/
def checkConflicts (st : DebState) (env : Env) : Bool × DebState :=
  let p := runDpkgCommand (env.dpkg ["--dry-run", "-i", st.fileName]) ""
  if p.1 then (false, st)
  else if containsCI p.2 "conflict" then
    (true, { st with preInstallMessage := "Error: Package conflicts" })
  else (false, st)

/-- `DebInstaller::checkBreaksSystem`: stub, always no breakage. -/
def checkBreaksSystem (_st : DebState) : Bool := false

/-! ## Install session -/

/-- `DebInstaller::setStatus`: assign and emit only on change. -/
def setStatus (st : DebState) (s : Status) : DebState × List Sig :=
  if st.status ≠ s then ({ st with status := s }, [Sig.statusChanged])
  else (st, [])

/-- `DebInstaller::install`.  Guarded only by `m_isValid && m_canInstall`;
when the guard passes it sets the status to `Installing`, replaces the status
message, clears the accumulated log, emits the notifications and starts
`dpkg -i` on the install process.  `QProcess::start` on an already-running
process does nothing (the existing process continues unaffected), which is
the only thing preventing a second concurrent child. -/
def install (st : DebState) : DebState × List Sig × List Act :=
  if st.isValid = false ∨ st.canInstall = false then (st, [], [])
  else
    let s1 := setStatus st Status.Installing
    let st1 := { s1.1 with statusMessage := "Starting installation", statusDetails := "" }
    let started :=
      if st1.processRunning then (st1, ([] : List Act))
      else ({ st1 with processRunning := true }, [Act.startInstall st1.fileName])
    (started.1,
     s1.2 ++ [Sig.statusMessageChanged, Sig.statusDetailsTextChanged,
              Sig.requestSwitchToInstallPage],
     started.2)

/-- `DebInstaller::onInstallFinished`: a normal exit with code 0 transitions
to `Succeeded` and marks the package installed; any other outcome transitions
to `Error`, and the remaining buffered standard error (falling back to
standard output when empty) is appended to the log behind an `Error:` marker,
only when nonempty.  The child process is no longer running afterwards. -/
def onInstallFinished (st : DebState) (exitCode : Int) (normalExit : Bool)
    (remStderr remStdout : String) : DebState × List Sig :=
  let st0 := { st with processRunning := false }
  if normalExit = true ∧ exitCode = 0 then
    let s1 := setStatus st0 Status.Succeeded
    let st1 := { s1.1 with statusMessage := "Installation successful", isInstalled := true }
    (st1, s1.2 ++ [Sig.isInstalledChanged, Sig.statusMessageChanged])
  else
    let s1 := setStatus st0 Status.Error
    let st1 := { s1.1 with statusMessage := "Installation failed" }
    let errorOutput := if remStderr ≠ "" then remStderr else remStdout
    if errorOutput ≠ "" then
      ({ st1 with statusDetails := st1.statusDetails ++ "\n" ++ "Error:" ++ "\n" ++ errorOutput },
       s1.2 ++ [Sig.statusDetailsTextChanged, Sig.statusMessageChanged])
    else (st1, s1.2 ++ [Sig.statusMessageChanged])

/-- `DebInstaller::onInstallOutput`: append each newly arrived stdout and
stderr chunk to the log, emitting per nonempty append. -/
def onInstallOutput (st : DebState) (outChunk errChunk : String) :
    DebState × List Sig :=
  let a :=
    if outChunk ≠ "" then
      ({ st with statusDetails := st.statusDetails ++ outChunk },
       [Sig.statusDetailsTextChanged])
    else (st, [])
  let b :=
    if errChunk ≠ "" then
      ({ a.1 with statusDetails := a.1.statusDetails ++ errChunk },
       [Sig.statusDetailsTextChanged])
    else (a.1, [])
  (b.1, a.2 ++ b.2)

/-! ## Claim C1: the admissibility guard of `install()` -/

/-- C1: in every controller state with `valid = false` or `canInstall = false`,
`install()` has no observable effect: the state (in particular the session
status and the `statusDetails` log) is returned unchanged, no notification is
emitted and no process is started. -/
theorem install_noop_when_not_admissible (st : DebState)
    (h : st.isValid = false ∨ st.canInstall = false) :
    install st = (st, [], []) := by
  simp only [install, if_pos h]

/-- Witness for C1 at the freshly constructed controller state. -/
theorem install_noop_when_not_admissible_witness :
    (initState.isValid = false ∨ initState.canInstall = false)
    ∧ install initState = (initState, [], []) :=
  ⟨Or.inl rfl, install_noop_when_not_admissible initState (Or.inl rfl)⟩

/-! ## Claim C7: `install()` while already installing -/

/-- A controller mid-install: valid and admissible archive, status
`Installing`, child process running, some accumulated log text. -/
def runningState : DebState :=
  { initState with
    fileName := "/pkg.deb", isValid := true, canInstall := true,
    status := Status.Installing, processRunning := true,
    statusDetails := "unpacking pkg ..." }

/-- C7 counterexample: with the session already `Installing` (and the guard
booleans still true), `install()` is not a no-op — it clears the accumulated
log and emits notifications, because the source guards only on
`m_isValid && m_canInstall` and has no `Running`-state guard. -/
theorem install_while_running_not_noop :
    runningState.statusDetails ≠ ""
    ∧ (install runningState).1.statusDetails = ""
    ∧ (install runningState).2.1 ≠ [] := by decide

/-- C7 (amended): while the session is `Installing` with `valid` and
`canInstall` still true, a repeated `install()` performs no status transition
and starts no second child process (only because `QProcess::start` refuses
while one is running), but it does clear the log and re-emits the status,
log and page-switch notifications. -/
theorem install_while_running_behavior (st : DebState)
    (hv : st.isValid = true) (hc : st.canInstall = true)
    (hs : st.status = Status.Installing) (hp : st.processRunning = true) :
    (install st).1.status = Status.Installing
    ∧ (install st).2.2 = []
    ∧ (install st).1.statusDetails = ""
    ∧ (install st).2.1 = [Sig.statusMessageChanged, Sig.statusDetailsTextChanged,
        Sig.requestSwitchToInstallPage] := by
  simp [install, hv, hc, setStatus, hs, hp]

/-- Witness for C7 (amended) at the mid-install state. -/
theorem install_while_running_behavior_witness :
    (runningState.isValid = true ∧ runningState.canInstall = true
      ∧ runningState.status = Status.Installing ∧ runningState.processRunning = true)
    ∧ ((install runningState).1.status = Status.Installing
      ∧ (install runningState).2.2 = []
      ∧ (install runningState).1.statusDetails = ""
      ∧ (install runningState).2.1 = [Sig.statusMessageChanged,
          Sig.statusDetailsTextChanged, Sig.requestSwitchToInstallPage]) :=
  ⟨⟨rfl, rfl, rfl, rfl⟩, install_while_running_behavior runningState rfl rfl rfl rfl⟩

/-! ## Claim C8: selecting the already-selected path -/

/-- C8: calling `setFileName` with the path that is already selected
(`m_fileName`) is a complete no-op: the state is unchanged, no notification
fires and no external action (extraction or preflight) happens.  This also
covers the empty-selection case, where both guards of the source fire. -/
theorem setFileName_same_path_noop (st : DebState) (env : Env) :
    setFileName st env st.fileName = (st, [], []) := by
  simp [setFileName]

/-! ## Claim C5: completion of the install child process -/

/-- C5: a normal exit with code 0 transitions the session to `Succeeded` and
sets `isInstalled`, leaving the log untouched; any other outcome transitions
to `Error` and appends the remaining buffered standard error (falling back to
standard output, and appending nothing when both are empty) to the log behind
a single `"\nError:\n"` marker. -/
theorem onInstallFinished_terminal (st : DebState) (ec : Int) (nrm : Bool)
    (errRem outRem : String) :
    if nrm = true ∧ ec = 0 then
      (onInstallFinished st ec nrm errRem outRem).1.status = Status.Succeeded
      ∧ (onInstallFinished st ec nrm errRem outRem).1.isInstalled = true
      ∧ (onInstallFinished st ec nrm errRem outRem).1.statusDetails = st.statusDetails
    else
      (onInstallFinished st ec nrm errRem outRem).1.status = Status.Error
      ∧ (onInstallFinished st ec nrm errRem outRem).1.isInstalled = st.isInstalled
      ∧ (onInstallFinished st ec nrm errRem outRem).1.statusDetails =
          (if errRem ≠ "" then st.statusDetails ++ "\n" ++ "Error:" ++ "\n" ++ errRem
           else if outRem ≠ "" then st.statusDetails ++ "\n" ++ "Error:" ++ "\n" ++ outRem
           else st.statusDetails) := by
  by_cases h : nrm = true ∧ ec = 0
  · simp only [if_pos h]
    unfold onInstallFinished setStatus
    simp only [if_pos h]
    split <;> simp_all
  · simp only [if_neg h]
    unfold onInstallFinished setStatus
    simp only [if_neg h]
    by_cases he : errRem = ""
    · by_cases ho : outRem = ""
      · simp [he, ho]; split <;> simp_all
      · simp [he, ho]; split <;> simp_all
    · simp [he]; split <;> simp_all

/-! ## Claim C2: stale preflight results are discarded -/

/-- Delivering a preflight result never changes which future the watcher is
set to. -/
theorem onDependencyFinished_watcherFuture (st : DebState) (i : Nat) (r : Bool) :
    (onDependencyFinished st i r).1.watcherFuture = st.watcherFuture := by
  unfold onDependencyFinished
  split
  · split <;> rfl
  · rfl

/-- C2: when archive A's selection launched a preflight check (its future id
is `st.nextFutureId`) and archive B's selection then launched its own check
(replacing the watched future), a late delivery of A's result is a complete
no-op — it neither becomes `canInstall` nor emits anything — while B's
delivery sets `canInstall` to B's verdict; a delivery of A's result even
after B's has been applied is still discarded. -/
theorem stale_preflight_discarded (st : DebState) (env : Env)
    (pA pB : String) (rA rB : Bool)
    (_hA : (setFileName st env pA).1.watcherFuture = some st.nextFutureId)
    (hAn : (setFileName st env pA).1.nextFutureId = st.nextFutureId + 1)
    (hB : (setFileName (setFileName st env pA).1 env pB).1.watcherFuture
        = some (setFileName st env pA).1.nextFutureId) :
    onDependencyFinished (setFileName (setFileName st env pA).1 env pB).1
        st.nextFutureId rA
      = ((setFileName (setFileName st env pA).1 env pB).1, [])
    ∧ (onDependencyFinished (setFileName (setFileName st env pA).1 env pB).1
        ((setFileName st env pA).1.nextFutureId) rB).1.canInstall = rB
    ∧ onDependencyFinished
        (onDependencyFinished (setFileName (setFileName st env pA).1 env pB).1
          ((setFileName st env pA).1.nextFutureId) rB).1
        st.nextFutureId rA
      = ((onDependencyFinished (setFileName (setFileName st env pA).1 env pB).1
          ((setFileName st env pA).1.nextFutureId) rB).1, []) := by
  have hne : (setFileName (setFileName st env pA).1 env pB).1.watcherFuture
      ≠ some st.nextFutureId := by
    rw [hB, hAn]
    simp
  refine ⟨?_, ?_, ?_⟩
  · unfold onDependencyFinished
    rw [if_neg hne]
  · unfold onDependencyFinished
    rw [if_pos hB]
    split <;> rfl
  · conv =>
      lhs
      rw [onDependencyFinished]
    rw [onDependencyFinished_watcherFuture, if_neg hne]

/-- A benign environment in which every archive resolves to itself, has the
Debian MIME type, and `dpkg -I` succeeds with a fixed control output. -/
def demoEnv : Env :=
  { absolutePath := id
    mimeTypeOf := fun _ => debMime
    dpkg := fun _ => ⟨true, 0, "Package: foo\nVersion: 1.0\nInstalled-Size: 10\n"⟩
    aptCacheOk := false
    aptLookup := fun _ => none }

/-- Witness for C2: two successive selections in `demoEnv` launch futures 0
and 1; the stale delivery for future 0 changes nothing. -/
theorem stale_preflight_discarded_witness :
    ((setFileName initState demoEnv "/a.deb").1.watcherFuture
        = some initState.nextFutureId
      ∧ (setFileName initState demoEnv "/a.deb").1.nextFutureId
        = initState.nextFutureId + 1
      ∧ (setFileName (setFileName initState demoEnv "/a.deb").1 demoEnv
          "/b.deb").1.watcherFuture
        = some (setFileName initState demoEnv "/a.deb").1.nextFutureId)
    ∧ (onDependencyFinished
        (setFileName (setFileName initState demoEnv "/a.deb").1 demoEnv "/b.deb").1
        initState.nextFutureId false
      = ((setFileName (setFileName initState demoEnv "/a.deb").1 demoEnv "/b.deb").1, [])
    ∧ (onDependencyFinished
        (setFileName (setFileName initState demoEnv "/a.deb").1 demoEnv "/b.deb").1
        ((setFileName initState demoEnv "/a.deb").1.nextFutureId) true).1.canInstall = true
    ∧ onDependencyFinished
        (onDependencyFinished
          (setFileName (setFileName initState demoEnv "/a.deb").1 demoEnv "/b.deb").1
          ((setFileName initState demoEnv "/a.deb").1.nextFutureId) true).1
        initState.nextFutureId false
      = ((onDependencyFinished
          (setFileName (setFileName initState demoEnv "/a.deb").1 demoEnv "/b.deb").1
          ((setFileName initState demoEnv "/a.deb").1.nextFutureId) true).1, [])) :=
  ⟨⟨by decide, by decide, by decide⟩,
   stale_preflight_discarded initState demoEnv "/a.deb" "/b.deb" false true
     (by decide) (by decide) (by decide)⟩

/-! ## Claim C3: command timeouts and the dependency check -/

/-- An environment whose `dpkg` never finishes within the 5-second bound. -/
def timeoutEnv : Env :=
  { absolutePath := id
    mimeTypeOf := fun _ => debMime
    dpkg := fun _ => ⟨false, 0, "unread buffered text"⟩
    aptCacheOk := false
    aptLookup := fun _ => none }

/-- A controller with an archive selected, used to exercise the checks. -/
def selectedState : DebState := { initState with fileName := "/pkg.deb" }

/-- C3 counterexample: when the trial-install command times out,
`checkDependencies` DOES report dependencies satisfied — the timeout leaves
the captured output empty, no dependency keyword is found, and the permissive
default returns `true`.  This refutes the claim that the dependency check
never reports dependencies satisfied on a trial-install timeout. -/
theorem timeout_dependency_check_passes :
    (timeoutEnv.dpkg ["--dry-run", "-i", selectedState.fileName]).finishedInTime = false
    ∧ (checkDependencies selectedState timeoutEnv).1 = true := by decide

/-- C3 (amended): at the command-invocation level a timeout is a tool
failure — `runDpkgCommand` returns `false` and leaves the output parameter
untouched, never "command succeeded" — but `checkDependencies`, whose trial
install times out, then sees an empty diagnostic, finds no dependency
keyword, and reports dependencies satisfied via its permissive default. -/
theorem timeout_tool_failure (r : ProcResult) (out0 : String)
    (st : DebState) (env : Env)
    (hr : r.finishedInTime = false)
    (he : (env.dpkg ["--dry-run", "-i", st.fileName]).finishedInTime = false) :
    runDpkgCommand r out0 = (false, out0)
    ∧ checkDependencies st env = (true, st) := by
  constructor
  · simp [runDpkgCommand, hr]
  · unfold checkDependencies
    simp only [runDpkgCommand, he]
    simp [containsCI, findSub]

/-- Witness for C3 (amended) in the timeout environment. -/
theorem timeout_tool_failure_witness :
    ((ProcResult.mk false 2 "junk").finishedInTime = false
      ∧ (timeoutEnv.dpkg ["--dry-run", "-i", selectedState.fileName]).finishedInTime = false)
    ∧ (runDpkgCommand (ProcResult.mk false 2 "junk") "seed" = (false, "seed")
      ∧ checkDependencies selectedState timeoutEnv = (true, selectedState)) :=
  ⟨⟨rfl, rfl⟩,
   timeout_tool_failure (ProcResult.mk false 2 "junk") "seed" selectedState
     timeoutEnv rfl rfl⟩

/-! ## Claim C4: selection of a non-package MIME type -/

/-- C4 (amended): for an input whose content-sniffed MIME type is not the
package-archive type, `setFileName` only sets the "not a valid Debian
package" message and emits its notification: no `dpkg` invocation and no
preflight launch occur, and every other field — `isValid` included — keeps
its previous value (so `valid` remains `false` exactly when it was `false`
before the call, but is NOT reset when a valid archive was selected
earlier). -/
theorem setFileName_mime_mismatch (st : DebState) (env : Env) (p : String)
    (hne : p ≠ "") (hdiff : st.fileName ≠ p)
    (hm : env.mimeTypeOf (env.absolutePath
        (String.mk (removeAllSub p.toList ("file://").toList))) ≠ debMime) :
    setFileName st env p =
      ({ st with preInstallMessage := "Error: Not a valid Debian package" },
       [Sig.preInstallMessageChanged], []) := by
  unfold setFileName
  rw [if_neg (by simp [hne, hdiff, Ne.symm hdiff])]
  simp only [hm, if_pos, ne_eq, not_false_iff, if_true]

/-- An environment that classifies every file as a plain octet stream. -/
def mismatchEnv : Env :=
  { absolutePath := id
    mimeTypeOf := fun _ => "application/octet-stream"
    dpkg := fun _ => ⟨true, 0, ""⟩
    aptCacheOk := false
    aptLookup := fun _ => none }

/-- A controller on which a previous archive was selected and validated. -/
def validSelectedState : DebState :=
  { initState with fileName := "/old.deb", isValid := true }

/-- C4 counterexample: after selecting a MIME-mismatching path on a
controller whose previous archive was valid, `valid` is still `true` — the
claim that `valid = false` holds after the call regardless of the previously
selected archive is false, because the source returns before the reset. -/
theorem mime_mismatch_keeps_prior_valid :
    (setFileName validSelectedState mismatchEnv "/new.bin").1.isValid = true := by
  decide

/-- Witness for C4 (amended) on the previously-valid controller. -/
theorem setFileName_mime_mismatch_witness :
    (("/new.bin" : String) ≠ ""
      ∧ validSelectedState.fileName ≠ "/new.bin"
      ∧ mismatchEnv.mimeTypeOf (mismatchEnv.absolutePath
          (String.mk (removeAllSub ("/new.bin").toList ("file://").toList))) ≠ debMime)
    ∧ setFileName validSelectedState mismatchEnv "/new.bin" =
        ({ validSelectedState with
            preInstallMessage := "Error: Not a valid Debian package" },
         [Sig.preInstallMessageChanged], []) :=
  ⟨⟨by decide, by decide, by decide⟩,
   setFileName_mime_mismatch validSelectedState mismatchEnv "/new.bin"
     (by decide) (by decide) (by decide)⟩

/-! ## Claim C6: wholesale metadata replacement and the installed-size field -/

/-- C6 (amended): when extraction runs (the initial `dpkg -I` succeeded), the
name, version, maintainer, description and homepage fields are replaced
wholesale by the newly extracted values; the installed-size string, however,
is only overwritten when the new archive's `Installed-Size` field is present
and numeric — when it is missing or non-numeric the previous value is
retained (empty on a fresh controller, but stale when an earlier archive had
set it). -/
theorem parseDebFile_replaces_metadata (st : DebState) (env : Env)
    (hok : (runDpkgCommand (env.dpkg ["-I", st.fileName]) "").1 = true)
    (hsz : extractControlField env st.fileName "Installed-Size" = ""
      ∨ parseDoubleF (extractControlField env st.fileName "Installed-Size") = none) :
    (parseDebFile st env).2.1.packageName
        = extractControlField env st.fileName "Package"
    ∧ (parseDebFile st env).2.1.version
        = extractControlField env st.fileName "Version"
    ∧ (parseDebFile st env).2.1.maintainer
        = extractControlField env st.fileName "Maintainer"
    ∧ (parseDebFile st env).2.1.description
        = firstLineQuirk (extractControlField env st.fileName "Description")
    ∧ (parseDebFile st env).2.1.homePage
        = extractControlField env st.fileName "Homepage"
    ∧ (parseDebFile st env).2.1.installedSize = st.installedSize := by
  unfold parseDebFile
  rw [if_neg (by simp [hok])]
  rcases hsz with hsz | hsz
  · simp [hsz]
  · by_cases hemp : extractControlField env st.fileName "Installed-Size" = ""
    · simp [hemp]
    · simp [hemp, hsz]

/-- An environment whose control output carries a non-numeric
`Installed-Size` field. -/
def staleSizeEnv : Env :=
  { absolutePath := id
    mimeTypeOf := fun _ => debMime
    dpkg := fun _ => ⟨true, 0, "Package: bar\nInstalled-Size: abc\n"⟩
    aptCacheOk := false
    aptLookup := fun _ => none }

/-- A controller that carries the formatted size of a previously selected
archive. -/
def staleSizeState : DebState :=
  { initState with fileName := "/b.deb", installedSize := "1.0 KB" }

/-- C6 counterexample: extraction of the new archive succeeds, its
`Installed-Size` field is the non-numeric `"abc"`, and the exposed
installed-size value afterwards is the previous archive's `"1.0 KB"` — not
empty/None as the claim requires. -/
theorem installed_size_retained_from_previous :
    (parseDebFile staleSizeState staleSizeEnv).1 = true
    ∧ extractControlField staleSizeEnv "/b.deb" "Installed-Size" = "abc"
    ∧ parseDoubleF "abc" = none
    ∧ (parseDebFile staleSizeState staleSizeEnv).2.1.installedSize = "1.0 KB" := by
  decide

/-- Witness for C6 (amended) in the stale-size scenario. -/
theorem parseDebFile_replaces_metadata_witness :
    ((runDpkgCommand (staleSizeEnv.dpkg ["-I", staleSizeState.fileName]) "").1 = true
      ∧ parseDoubleF (extractControlField staleSizeEnv staleSizeState.fileName
          "Installed-Size") = none)
    ∧ ((parseDebFile staleSizeState staleSizeEnv).2.1.packageName
        = extractControlField staleSizeEnv staleSizeState.fileName "Package"
    ∧ (parseDebFile staleSizeState staleSizeEnv).2.1.version
        = extractControlField staleSizeEnv staleSizeState.fileName "Version"
    ∧ (parseDebFile staleSizeState staleSizeEnv).2.1.maintainer
        = extractControlField staleSizeEnv staleSizeState.fileName "Maintainer"
    ∧ (parseDebFile staleSizeState staleSizeEnv).2.1.description
        = firstLineQuirk (extractControlField staleSizeEnv staleSizeState.fileName
            "Description")
    ∧ (parseDebFile staleSizeState staleSizeEnv).2.1.homePage
        = extractControlField staleSizeEnv staleSizeState.fileName "Homepage"
    ∧ (parseDebFile staleSizeState staleSizeEnv).2.1.installedSize
        = staleSizeState.installedSize) :=
  ⟨⟨by decide, by decide⟩,
   parseDebFile_replaces_metadata staleSizeState staleSizeEnv (by decide)
     (Or.inr (by decide))⟩

/-! ## Claim C9: byte-size formatting -/

/-- `fleNat` decides the rational comparison when the denominator is
positive. -/
theorem fleNat_iff (n : Nat) (f : Frac) (hd : 0 < f.den) :
    fleNat n f = true ↔ (n : ℚ) ≤ f.val := by
  unfold fleNat Frac.val
  rw [decide_eq_true_iff]
  have hdQ : (0 : ℚ) < (f.den : ℚ) := by exact_mod_cast hd
  rw [le_div_iff₀ hdQ]
  constructor
  · intro h
    exact_mod_cast h
  · intro h
    exact_mod_cast h

/-- `fabs` denotes the absolute value. -/
theorem fabs_val (f : Frac) : (fabs f).val = |f.val| := by
  unfold fabs Frac.val
  rw [abs_div, abs_of_nonneg (a := (f.den : ℚ)) (by positivity)]
  congr 1
  push_cast
  rfl

/-- Division by a positive natural denotes rational division. -/
theorem fdivP_val (f : Frac) (n : Nat) : (fdivP f n).val = f.val / (n : ℚ) := by
  unfold fdivP Frac.val
  push_cast
  rw [div_div]

/-- Behaviour of the `formatByteSize` scaling loop, by induction on the
remaining fuel: it performs some number `k` of divisions by 1024, bounded by
the fuel; it stops early only below 1024; and it divides at all only from
1024 upwards. -/
theorem scaleSteps_characterization (fuel : Nat) :
    ∀ (q : Frac) (unit : Nat), 0 < q.den →
    ∃ k : Nat, k ≤ fuel
      ∧ (scaleSteps q unit fuel).2 = unit + k
      ∧ 0 < (scaleSteps q unit fuel).1.den
      ∧ (scaleSteps q unit fuel).1.val = q.val / 1024 ^ k
      ∧ (k = fuel ∨ |q.val| / 1024 ^ k < 1024)
      ∧ (k = 0 ∨ 1024 ^ k ≤ |q.val|) := by
  induction fuel with
  | zero =>
    intro q unit hd
    exact ⟨0, Nat.le_refl 0, rfl, hd, by simp [scaleSteps], Or.inl rfl, Or.inl rfl⟩
  | succ n ih =>
    intro q unit hd
    by_cases h : fleNat 1024 (fabs q) = true
    · have h1024 : (1024 : ℚ) ≤ |q.val| := by
        have := (fleNat_iff 1024 (fabs q) (by simpa [fabs] using hd)).mp h
        rw [fabs_val] at this
        exact_mod_cast this
      have hd' : 0 < (fdivP q 1024).den := by
        simp [fdivP]
        omega
      obtain ⟨k, hk, hu, hdres, hval, hstop, hlow⟩ := ih (fdivP q 1024) (unit + 1) hd'
      have hstep : scaleSteps q unit (n + 1) = scaleSteps (fdivP q 1024) (unit + 1) n := by
        simp [scaleSteps, h]
      have hdiv : (fdivP q 1024).val = q.val / 1024 := by
        rw [fdivP_val]
        norm_num
      have habsdiv : |(fdivP q 1024).val| = |q.val| / 1024 := by
        rw [hdiv, abs_div]
        norm_num
      refine ⟨k + 1, by omega, ?_, ?_, ?_, ?_, ?_⟩
      · rw [hstep, hu]
        omega
      · rw [hstep]
        exact hdres
      · rw [hstep, hval, hdiv, div_div, ← pow_succ' (1024 : ℚ) k]
      · rcases hstop with he | hlt
        · exact Or.inl (by omega)
        · refine Or.inr ?_
          rw [habsdiv, div_div, ← pow_succ' (1024 : ℚ) k] at hlt
          exact hlt
      · refine Or.inr ?_
        rcases hlow with he | hge
        · subst he
          rw [pow_one]
          exact h1024
        · rw [habsdiv, le_div_iff₀ (by norm_num : (0:ℚ) < 1024)] at hge
          rw [pow_succ (1024 : ℚ) k]
          exact hge
    · refine ⟨0, Nat.zero_le _, ?_, ?_, ?_, Or.inr ?_, Or.inl rfl⟩
      · simp [scaleSteps, h]
      · simpa [scaleSteps, h] using hd
      · simp [scaleSteps, h]
      · have : ¬ (1024 : ℚ) ≤ |q.val| := by
          intro hle
          apply h
          rw [fleNat_iff 1024 (fabs q) (by simpa [fabs] using hd), fabs_val]
          exact_mod_cast hle
        rw [pow_zero, div_one]
        exact lt_of_not_le this

/-- C9: the scaling loop chooses the number of 1024-divisions (the unit) as
the largest count keeping the scaled magnitude below 1024, capped at 8
(yottabytes, beyond which no further scaling happens), and the rendered
examples: 0 bytes with zero decimals, one-decimal KB values, and the YB cap. -/
theorem formatByteSize_spec (q : Frac) (hd : 0 < q.den) :
    (scaleSteps q 0 8).2 ≤ 8
    ∧ (scaleSteps q 0 8).1.val = q.val / 1024 ^ (scaleSteps q 0 8).2
    ∧ ((scaleSteps q 0 8).2 = 8 ∨ |q.val| / 1024 ^ (scaleSteps q 0 8).2 < 1024)
    ∧ ((scaleSteps q 0 8).2 = 0 ∨ 1024 ^ (scaleSteps q 0 8).2 ≤ |q.val|)
    ∧ formatByteSize (Frac.ofNat 0) 1 = "0 B"
    ∧ formatByteSize (Frac.ofNat 1024) 1 = "1.0 KB"
    ∧ formatByteSize (Frac.ofNat 1536) 1 = "1.5 KB"
    ∧ formatByteSize (Frac.ofNat (1024 ^ 8)) 1 = "1.0 YB"
    ∧ formatByteSize (Frac.ofNat (1024 ^ 9)) 1 = "1024.0 YB" := by
  obtain ⟨k, hk, hu, -, hval, hstop, hlow⟩ := scaleSteps_characterization 8 q 0 hd
  rw [Nat.zero_add] at hu
  refine ⟨?_, ?_, ?_, ?_, by decide, by decide, by decide, by decide, by decide⟩
  · rw [hu]
    exact hk
  · rw [hu]
    exact hval
  · rw [hu]
    exact hstop
  · rw [hu]
    exact hlow

/-- Witness for C9 at the fraction 1536/1. -/
theorem formatByteSize_spec_witness :
    0 < (Frac.mk 1536 1).den
    ∧ ((scaleSteps (Frac.mk 1536 1) 0 8).2 ≤ 8
      ∧ (scaleSteps (Frac.mk 1536 1) 0 8).1.val
          = (Frac.mk 1536 1).val / 1024 ^ (scaleSteps (Frac.mk 1536 1) 0 8).2
      ∧ ((scaleSteps (Frac.mk 1536 1) 0 8).2 = 8
          ∨ |(Frac.mk 1536 1).val| / 1024 ^ (scaleSteps (Frac.mk 1536 1) 0 8).2 < 1024)
      ∧ ((scaleSteps (Frac.mk 1536 1) 0 8).2 = 0
          ∨ 1024 ^ (scaleSteps (Frac.mk 1536 1) 0 8).2 ≤ |(Frac.mk 1536 1).val|)
      ∧ formatByteSize (Frac.ofNat 0) 1 = "0 B"
      ∧ formatByteSize (Frac.ofNat 1024) 1 = "1.0 KB"
      ∧ formatByteSize (Frac.ofNat 1536) 1 = "1.5 KB"
      ∧ formatByteSize (Frac.ofNat (1024 ^ 8)) 1 = "1.0 YB"
      ∧ formatByteSize (Frac.ofNat (1024 ^ 9)) 1 = "1024.0 YB") :=
  ⟨by decide, formatByteSize_spec (Frac.mk 1536 1) (by decide)⟩

/-! ## Claim C10: control-field values are single trimmed lines -/

/-- After `dropWhile p`, the head (if any) fails `p`. -/
theorem head_dropWhile_all (p : Char → Bool) (l : List Char) :
    ((l.dropWhile p).head?.all (fun c => !p c)) = true := by
  have h := List.head?_dropWhile_not p l
  cases hh : (l.dropWhile p).head? with
  | none => rfl
  | some c =>
    rw [hh] at h
    simp only [Option.all]
    rw [h]
    rfl

/-- A nonempty `dropWhile` keeps the last element of the list. -/
theorem getLast_dropWhile_eq (p : Char → Bool) (l : List Char)
    (h : l.dropWhile p ≠ []) : (l.dropWhile p).getLast? = l.getLast? := by
  induction l with
  | nil => exact absurd rfl h
  | cons a t ih =>
    rw [List.dropWhile_cons] at h ⊢
    by_cases hp : p a = true
    · rw [if_pos hp] at h ⊢
      have ht : t ≠ [] := by
        intro he
        rw [he] at h
        exact h rfl
      rw [ih h]
      cases t with
      | nil => exact absurd rfl ht
      | cons b u => rw [List.getLast?_cons_cons]
    · rw [if_neg hp]

/-- The trimmed newline-free capture is newline-free with no whitespace at
either end. -/
theorem trimmed_capture_props (l : List Char) :
    ((trimList (l.takeWhile (fun c => !(c = '\n')))).all (fun c => !(c = '\n'))) = true
    ∧ ((trimList (l.takeWhile (fun c => !(c = '\n')))).head?.all (fun c => !isQtSpace c)) = true
    ∧ ((trimList (l.takeWhile (fun c => !(c = '\n')))).getLast?.all (fun c => !isQtSpace c)) = true := by
  refine ⟨?_, ?_, ?_⟩
  · rw [List.all_eq_true]
    intro x hx
    have h1 : x ∈ (((l.takeWhile (fun c => !(c = '\n'))).dropWhile isQtSpace).reverse).dropWhile isQtSpace := by
      rw [trimList] at hx
      exact List.mem_reverse.mp hx
    have h2 : x ∈ ((l.takeWhile (fun c => !(c = '\n'))).dropWhile isQtSpace).reverse :=
      ((List.dropWhile_suffix isQtSpace).sublist).subset h1
    have h3 : x ∈ (l.takeWhile (fun c => !(c = '\n'))).dropWhile isQtSpace :=
      List.mem_reverse.mp h2
    have h4 : x ∈ l.takeWhile (fun c => !(c = '\n')) :=
      ((List.dropWhile_suffix isQtSpace).sublist).subset h3
    exact List.mem_takeWhile_imp (p := fun c => !(c = '\n')) h4
  · rw [trimList, List.head?_reverse]
    by_cases hB : (((l.takeWhile (fun c => !(c = '\n'))).dropWhile isQtSpace).reverse).dropWhile isQtSpace = []
    · rw [hB]
      rfl
    · rw [getLast_dropWhile_eq isQtSpace _ hB, List.getLast?_reverse]
      exact head_dropWhile_all isQtSpace _
  · rw [trimList, List.getLast?_reverse]
    exact head_dropWhile_all isQtSpace _

/-- C10: every value `extractControlField` returns is a single line — it
contains no newline character (the capture of the line-anchored pattern
cannot span one) — and, being trimmed, neither starts nor ends with a
whitespace character. -/
theorem extractControlField_single_line (env : Env) (file fld : String) :
    ((extractControlField env file fld).toList.all (fun c => !(c = '\n'))) = true
    ∧ ((extractControlField env file fld).toList.head?.all (fun c => !isQtSpace c)) = true
    ∧ ((extractControlField env file fld).toList.getLast?.all (fun c => !isQtSpace c)) = true := by
  unfold extractControlField
  split
  · split
    · rename_i cap heq
      unfold matchFieldCapture at heq
      split at heq
      · cases heq
      · rename_i i hfind
        have hc : cap = (((runDpkgCommand (env.dpkg ["-I", file, fld]) "").2.toList.drop
              (i + fld.length + 1)).dropWhile isQtSpace).takeWhile (fun c => !(c = '\n')) := by
          cases heq
          rfl
        rw [hc]
        exact trimmed_capture_props _
    · exact ⟨rfl, rfl, rfl⟩
  · exact ⟨rfl, rfl, rfl⟩

end DebInstaller
